import Mathlib

/-!
Verification of the gamdl web front-end (`src/web_app.py`).

The development shallowly embeds the pure core of the Flask application:
the Apple Music URL classifier (`parse_apple_music_url`, including a
faithful executable model of the Python `re.search` calls it makes), the
metadata batch fetcher (`get_metadata_from_urls`, with the network calls
abstracted as an oracle), the preview aggregation (`preview_metadata`),
the download-request validation (`download`), the external command
construction and the subprocess read loop of `run_gamdl_command`
(filesystem existence and subprocess events abstracted as oracles), the
progress line classifier (`update_progress_from_line`), and a small-step
machine for the `active_downloads` / `download_results` registry updates
performed by the background job thread.
-/

/-! ## String utilities mirroring the Python built-ins used by web_app.py -/

/-- `startsWithL pat s` is true when the character list `pat` is a prefix of `s`. -/
def startsWithL : List Char → List Char → Bool
  | [], _ => true
  | _ :: _, [] => false
  | p :: ps, c :: cs => p = c && startsWithL ps cs

/-- Python `pat in s` substring membership on character lists. -/
def listContains (pat : List Char) : List Char → Bool
  | [] => startsWithL pat []
  | c :: t => startsWithL pat (c :: t) || listContains pat t

/-- Python `pat in s` substring membership on strings. -/
def strContains (pat s : String) : Bool :=
  listContains pat.data s.data

/-- Python `str.lower()` (ASCII fragment, which is all the source compares). -/
def lowerStr (s : String) : String :=
  String.mk (s.data.map Char.toLower)

/-- Python `str.strip()`: remove whitespace from both ends. -/
def stripChars (s : List Char) : List Char :=
  ((s.dropWhile Char.isWhitespace).reverse.dropWhile Char.isWhitespace).reverse

/-- Python `str.strip()` on strings. -/
def stripStr (s : String) : String :=
  String.mk (stripChars s.data)

/-- Accumulator-passing worker for `splitNl`; `acc` holds the current
piece reversed. -/
def splitNlAux : List Char → List Char → List String
  | acc, [] => [String.mk acc.reverse]
  | acc, c :: t =>
    if c = '\n' then String.mk acc.reverse :: splitNlAux [] t
    else splitNlAux (c :: acc) t

/-- Python `s.split('\n')`: split at every newline, keeping empty pieces. -/
def splitNl (s : String) : List String :=
  splitNlAux [] s.data

/-- The URL list preprocessing used throughout web_app.py:
`[url.strip() for url in urls.split('\n') if url.strip()]`. -/
def splitUrls (raw : String) : List String :=
  ((splitNl raw).map stripStr).filter (fun u => u ≠ "")

/-- Value of a digit run, used for Python `int(...)` on a `\d+` match. -/
def digitsToNat (ds : List Char) : Nat :=
  ds.foldl (fun acc c => acc * 10 + (c.toNat - 48)) 0

/-- Python `re.findall(r'\d+', line)[0]` followed by `int(...)`: the first
maximal digit run in the line, if any. -/
def firstNumber : List Char → Option Nat
  | [] => none
  | c :: t =>
    if c.isDigit then some (digitsToNat (c :: t.takeWhile Char.isDigit))
    else firstNumber t

/-- Python `str.title()` (ASCII fragment): the first letter of each
alphabetic run is uppercased, the rest lowercased. -/
def pyTitleAux : Bool → List Char → List Char
  | _, [] => []
  | prevCased, c :: t =>
    if c.isAlpha then
      (if prevCased then c.toLower else c.toUpper) :: pyTitleAux true t
    else
      c :: pyTitleAux false t

/-- Python `str.title()` on strings. -/
def pyTitle (s : String) : String :=
  String.mk (pyTitleAux false s.data)

/-- Python `s.replace('-', ' ')`. -/
def dashToSpace (s : String) : String :=
  String.mk (s.data.map (fun c => if c = '-' then ' ' else c))

/-- Python truthiness of an optional string (`None` and `''` are falsy). -/
def truthyOpt : Option String → Bool
  | none => false
  | some s => if s = "" then false else true

/-! ## A small executable model of the `re.search` calls of web_app.py

The four URL patterns of `parse_apple_music_url` and the artist-id pattern
of `run_gamdl_command` are concatenations of literal pieces and greedy
one-or-more character-class quantifiers (`[^/]+`, `[^/?]+`, `\d+`), some
of them capturing.  `matchElems` performs the match at a fixed position
with the longest-first backtracking that Python's greedy quantifiers use,
and `reSearch` scans for the leftmost position with a match, exactly as
`re.search` does. -/

/-- One element of a pattern: a literal, or a greedy one-or-more
character-class quantifier which may be a capturing group. -/
inductive PatElem where
  | lit (t : List Char)
  | plus (cls : Char → Bool) (capture : Bool)

/-- All ways to split off a nonempty run of class characters, longest
first — the candidate matches of a greedy `+`, in backtracking order. -/
def splitsDesc (cls : Char → Bool) (s : List Char) : List (List Char × List Char) :=
  let n := (s.takeWhile cls).length
  (List.range n).map (fun k => (s.take (n - k), s.drop (n - k)))

/-- First non-`none` value of `f` over a list, in order. -/
def firstSome {α β : Type} (f : α → Option β) : List α → Option β
  | [] => none
  | a :: t =>
    match f a with
    | some b => some b
    | none => firstSome f t

/-- Match a pattern at the start of `s`, returning the list of captured
groups on success.  Trailing input is allowed, as in `re.search`. -/
def matchElems : List PatElem → List Char → Option (List (List Char))
  | [], _ => some []
  | .lit t :: ps, s =>
    if startsWithL t s then matchElems ps (s.drop t.length) else none
  | .plus cls cap :: ps, s =>
    firstSome
      (fun pr => (matchElems ps pr.2).map (fun gs => if cap then pr.1 :: gs else gs))
      (splitsDesc cls s)

/-- `re.search`: try the pattern at every start position, leftmost first. -/
def reSearch (p : List PatElem) : List Char → Option (List (List Char))
  | [] => matchElems p []
  | c :: t =>
    match matchElems p (c :: t) with
    | some gs => some gs
    | none => reSearch p t

/-- The class `[^/]`. -/
def notSlash (c : Char) : Bool := c ≠ '/'

/-- The class `[^/?]`. -/
def notSlashQm (c : Char) : Bool := c ≠ '/' && c ≠ '?'

/-- The class `\d`. -/
def isDigitC (c : Char) : Bool := c.isDigit

/-- `music\.apple\.com/[^/]+/album/([^/]+)/(\d+)` -/
def albumPat : List PatElem :=
  [.lit "music.apple.com/".data, .plus notSlash false, .lit "/album/".data,
   .plus notSlash true, .lit "/".data, .plus isDigitC true]

/-- `music\.apple\.com/[^/]+/playlist/([^/]+)/pl\.([^/?]+)` -/
def playlistPat : List PatElem :=
  [.lit "music.apple.com/".data, .plus notSlash false, .lit "/playlist/".data,
   .plus notSlash true, .lit "/pl.".data, .plus notSlashQm true]

/-- `music\.apple\.com/[^/]+/album/[^/]+/(\d+)\?i=(\d+)` -/
def songPat : List PatElem :=
  [.lit "music.apple.com/".data, .plus notSlash false, .lit "/album/".data,
   .plus notSlash false, .lit "/".data, .plus isDigitC true,
   .lit "?i=".data, .plus isDigitC true]

/-- `music\.apple\.com/[^/]+/artist/([^/]+)/(\d+)` -/
def artistPat : List PatElem :=
  [.lit "music.apple.com/".data, .plus notSlash false, .lit "/artist/".data,
   .plus notSlash true, .lit "/".data, .plus isDigitC true]

/-- `artist/([^/]+)/(\d+)` (artist-expansion id extraction in `run_gamdl_command`). -/
def artistIdPat : List PatElem :=
  [.lit "artist/".data, .plus notSlash true, .lit "/".data, .plus isDigitC true]

/-! ## Data model (section "DATA MODEL" of the spec, from the source dicts) -/

/-- The `estimated_tracks` field holds either a Python `int` or a range
string such as `'5-15'`. -/
inductive EstTracks where
  | int (n : Int)
  | str (s : String)
deriving DecidableEq

/-- A metadata/preview record as built by `parse_apple_music_url`,
`get_real_metadata_with_gamdl` and the error fallback of
`get_metadata_from_urls`.  The richer per-kind fields of the API records
(artist, track list, durations, ...) are display-only and not consulted
by any of the verified control flow, so they are not carried here. -/
structure UrlMeta where
  url : String
  type : String
  title : String
  id : String
  estimated_tracks : EstTracks
deriving DecidableEq

/-- `estimate_track_count` (web_app.py lines 324-333). -/
def estimate_track_count (content_type : String) : EstTracks :=
  if content_type = "song" then .int 1
  else if content_type = "album" then .str "5-15"
  else if content_type = "playlist" then .str "10-100"
  else if content_type = "artist" then .str "20-200"
  else if content_type = "unknown" then .str "1+"
  else .str "1+"

/-- The record built at web_app.py lines 299-305 from a successful pattern
match: `title` is `match.group(1).replace('-',' ').title()` when there is
at least one group, `id` is `match.group(2)` when there are at least two
groups and `match.group(1)` otherwise.  A zero-group match would raise in
the source and be turned into the error record by the surrounding
`except`; no pattern of the source has zero groups. -/
def mkParsedMeta (url content_type : String) : List (List Char) → UrlMeta
  | g1 :: g2 :: _ =>
    { url := url, type := content_type, title := pyTitle (dashToSpace (String.mk g1)),
      id := String.mk g2, estimated_tracks := estimate_track_count content_type }
  | [g1] =>
    { url := url, type := content_type, title := pyTitle (dashToSpace (String.mk g1)),
      id := String.mk g1, estimated_tracks := estimate_track_count content_type }
  | [] =>
    { url := url, type := "error", title := "Error parsing URL: no such group",
      id := "error", estimated_tracks := .int 0 }

/-- `parse_apple_music_url` (web_app.py lines 285-322): the patterns are
tried in the insertion order of the `patterns` dict — album, playlist,
song, artist — and the first match wins; no match yields the `unknown`
record.  The matching itself cannot raise, so the `except` branch of the
source (lines 315-322) is unreachable. -/
def parse_apple_music_url (url : String) : UrlMeta :=
  match reSearch albumPat url.data with
  | some gs => mkParsedMeta url "album" gs
  | none =>
    match reSearch playlistPat url.data with
    | some gs => mkParsedMeta url "playlist" gs
    | none =>
      match reSearch songPat url.data with
      | some gs => mkParsedMeta url "song" gs
      | none =>
        match reSearch artistPat url.data with
        | some gs => mkParsedMeta url "artist" gs
        | none =>
          { url := url, type := "unknown", title := "Unknown Content",
            id := "unknown", estimated_tracks := .int 1 }

/-! ## Metadata fetcher (`get_metadata_from_urls`, web_app.py lines 51-125)

The Apple Music API is abstracted as an oracle mapping a URL to the
outcome of `get_real_metadata_with_gamdl` before its internal `except`:
`.ok (some r)` for a mapped record, `.ok none` when the API returned no
data or the content type is unhandled, `.error e` when the API call or
the response mapping raised. -/

/-- Outcome of the body of `get_real_metadata_with_gamdl` for one URL. -/
abbrev FetchOracle := String → Except String (Option UrlMeta)

/-- `get_real_metadata_with_gamdl` (web_app.py lines 127-233): its
`except Exception` returns `None`, so a raising API call degrades to no
metadata rather than propagating. -/
def get_real_metadata_with_gamdl (fetch : FetchOracle) (url : String) : Option UrlMeta :=
  match fetch url with
  | .ok r => r
  | .error _ => none

/-- The per-URL body of the loop of `get_metadata_from_urls` (web_app.py
lines 69-119).  When the API is available and the URL classified, a real
metadata record is preferred and the classifier record is the fallback.
The `Downloader`-based re-parse (lines 82-107) runs only when
`url_info['type'] == 'error'`, which `parse_apple_music_url` cannot
produce, and is therefore omitted; the per-URL `except` (lines 111-119)
is likewise unreachable because every callee catches internally. -/
def metadataForUrl (api : Option FetchOracle) (url : String) : UrlMeta :=
  let url_info := parse_apple_music_url url
  match api with
  | some fetch =>
    if url_info.type ≠ "error" then
      match get_real_metadata_with_gamdl fetch url with
      | some real => real
      | none => url_info
    else url_info
  | none => url_info

/-- `get_metadata_from_urls` (web_app.py lines 51-125) on an already-split
URL list: one record is appended per URL, in order. -/
def get_metadata_from_urls (api : Option FetchOracle) (urls : List String) : List UrlMeta :=
  urls.map (metadataForUrl api)

/-! ## Preview endpoint (`preview_metadata`, web_app.py lines 575-601) -/

/-- The JSON body returned by `POST /preview`. -/
structure PreviewResponse where
  metadata : List UrlMeta
  total_estimated_tracks : Int
  has_artists : Bool
deriving DecidableEq

/-- `preview_metadata` (web_app.py lines 575-598): the string input is
split exactly as `get_metadata_from_urls` splits it (lines 66-67), and
`total_estimated_tracks` is
`sum(int(e) if isinstance(e, int) else 1 for e in metadata)`. -/
def preview_metadata (api : Option FetchOracle) (rawUrls : String) : PreviewResponse :=
  let metadata := get_metadata_from_urls api (splitUrls rawUrls)
  { metadata := metadata,
    total_estimated_tracks :=
      metadata.foldl
        (fun acc item =>
          acc + match item.estimated_tracks with
                | .int n => n
                | .str _ => 1)
        0,
    has_artists := metadata.any (fun item => item.type = "artist") }

/-! ## Download request validation (`download`, web_app.py lines 603-625) -/

/-- Outcome of the early validation of the `/download` route. -/
inductive DownloadCheck where
  | noUrls
  | artistRequired
  | accepted
deriving DecidableEq

/-- The request validation of the `download` route (web_app.py lines
607-625): a 400 for an empty URL text, then a 400 demanding
`artist_download_type` when `any('artist' in url for url in url_list)`
and the option is absent or empty. -/
def download_validate (rawUrls : String) (artist_download_type : Option String) :
    DownloadCheck :=
  let urls := stripStr rawUrls
  if urls = "" then .noUrls
  else
    let url_list := splitUrls urls
    if url_list.any (fun u => strContains "artist" u) && !truthyOpt artist_download_type then
      .artistRequired
    else .accepted

/-! ## Artist expansion (`run_gamdl_command`, web_app.py lines 400-429) -/

/-- The `relationships` portion of an `api.get_artist` response: an id
list per relationship key, `none` when the key is absent. -/
structure ArtistRel where
  albums : Option (List String)
  music_videos : Option (List String)

/-- `api.get_artist` abstracted: `.error` models a raising API call. -/
abbrev ArtistOracle := String → Except String ArtistRel

/-- The per-URL body of the artist-expansion loop (web_app.py lines
400-429).  A URL is expanded exactly when it contains the substring
`'artist'` and an API client is available; the artist id is group 2 of
`re.search(r'artist/([^/]+)/(\d+)', url)`; every failure falls back to
the original URL. -/
def expand_artist_url (api : Option ArtistOracle) (artist_download_type : Option String)
    (url : String) : List String :=
  match api with
  | none => [url]
  | some oracle =>
    if strContains "artist" url then
      match reSearch artistIdPat url.data with
      | some (_ :: g2 :: _) =>
        (match oracle (String.mk g2) with
         | .error _ => [url]
         | .ok rel =>
           let download_type := artist_download_type.getD "albums"
           if download_type = "albums" then
             match rel.albums with
             | some ids => ids.map (fun i => "https://music.apple.com/album/" ++ i)
             | none => [url]
           else if download_type = "music-videos" then
             match rel.music_videos with
             | some ids => ids.map (fun i => "https://music.apple.com/music-video/" ++ i)
             | none => [url]
           else [url])
      | _ => [url]
    else [url]

/-- `processed_urls` accumulation of `run_gamdl_command` lines 400-429. -/
def process_urls (api : Option ArtistOracle) (artist_download_type : Option String)
    (urls : List String) : List String :=
  (urls.map (expand_artist_url api artist_download_type)).flatten

/-! ## Command construction (`run_gamdl_command`, web_app.py lines 431-479) -/

/-- The options dict passed to `run_gamdl_command`.  Optional strings
model `options.get(key)` (absent = `none`); the boolean flags model
`options.get(key)` truthiness (absent = `false`). -/
structure JobOptions where
  cookies_path : Option String := none
  output_path : Option String := none
  language : Option String := none
  cover_format : Option String := none
  codec_song : Option String := none
  quality_post : Option String := none
  log_level : Option String := none
  save_cover : Bool := false
  save_playlist : Bool := false
  overwrite : Bool := false
  no_synced_lyrics : Bool := false
  synced_lyrics_only : Bool := false
  disable_music_video_skip : Bool := false
  artist_download_type : Option String := none

/-- The module-level constant `DOWNLOAD_FOLDER = 'downloads'`. -/
def DOWNLOAD_FOLDER : String := "downloads"

/-- A string option contributing `[flag, value]` when truthy
(web_app.py lines 450-459). -/
def optArg (flag : String) (v : Option String) : List String :=
  match v with
  | some s => if s = "" then [] else [flag, s]
  | none => []

/-- A boolean option contributing `[flag]` when true (lines 464-476). -/
def boolFlag (b : Bool) (flag : String) : List String :=
  if b then [flag] else []

/-- The `-c` arguments (lines 435-445): fall back to `cookies.txt` in the
working directory when the option is falsy, then emit `-c` only when the
resulting path is truthy and exists on disk.  `fsExists` abstracts
`os.path.exists`; `defaultCookies` is `os.path.join(os.getcwd(),
'cookies.txt')`. -/
def cookiesArgs (fsExists : String → Bool) (defaultCookies : String)
    (v : Option String) : List String :=
  let cp := if truthyOpt v then v
            else if fsExists defaultCookies then some defaultCookies else v
  match cp with
  | some s => if s = "" then [] else if fsExists s then ["-c", s] else []
  | none => []

/-- The `-o` arguments (lines 446-449): the output path when truthy,
otherwise the `DOWNLOAD_FOLDER` default — `-o` is always emitted. -/
def outputArgs (v : Option String) : List String :=
  match v with
  | some s => if s = "" then ["-o", DOWNLOAD_FOLDER] else ["-o", s]
  | none => ["-o", DOWNLOAD_FOLDER]

/-- The option part of the command of `run_gamdl_command` (web_app.py
lines 431-476), before the URLs are appended. -/
def cmdBase (fsExists : String → Bool) (defaultCookies : String) (o : JobOptions) :
    List String :=
  ["python3", "-m", "gamdl"]
  ++ cookiesArgs fsExists defaultCookies o.cookies_path
  ++ outputArgs o.output_path
  ++ optArg "-l" o.language
  ++ optArg "--cover-format" o.cover_format
  ++ optArg "--codec-song" o.codec_song
  ++ optArg "--quality-post" o.quality_post
  ++ optArg "--log-level" o.log_level
  ++ ["--no-exceptions"]
  ++ boolFlag o.save_cover "--save-cover"
  ++ boolFlag o.save_playlist "--save-playlist"
  ++ boolFlag o.overwrite "--overwrite"
  ++ boolFlag o.no_synced_lyrics "--no-synced-lyrics"
  ++ boolFlag o.synced_lyrics_only "--synced-lyrics-only"
  ++ boolFlag o.disable_music_video_skip "--disable-music-video-skip"

/-- The full command list: options followed by the processed URLs
(web_app.py line 479, `cmd.extend(processed_urls)`). -/
def build_gamdl_cmd (fsExists : String → Bool) (defaultCookies : String)
    (o : JobOptions) (processed_urls : List String) : List String :=
  cmdBase fsExists defaultCookies o ++ processed_urls

/-! ## Progress tracker (`update_progress_from_line`, web_app.py lines 335-364) -/

/-- The structured fields of a `download_progress` entry consulted by the
line classifier.  (`output_lines` and `download_folder` are held in
`LoopSt` below.) -/
structure Progress where
  total_tracks : Nat
  completed_tracks : Nat
  current_track : String
  status : String
deriving DecidableEq

/-- `update_progress_from_line` (web_app.py lines 335-364), the keyword
rules in source order.  Matching is exactly the source's: case-sensitive
`'Downloading' in line` combined with case-insensitive `'track' in
line.lower()`, case-sensitive `'Downloaded'`/`'Finished'`,
case-sensitive `'Error'`/`'Failed'`, case-insensitive `'tracks found'`,
case-sensitive `'Processing'`. -/
def update_progress_from_line (p : Progress) (line : String) : Progress :=
  if strContains "Downloading" line && strContains "track" (lowerStr line) then
    { p with current_track := line, status := "downloading" }
  else if strContains "Downloaded" line || strContains "Finished" line then
    { p with completed_tracks := p.completed_tracks + 1, status := "downloading" }
  else if strContains "Error" line || strContains "Failed" line then
    { p with status := "error", current_track := "Error: " ++ line }
  else if strContains "tracks found" (lowerStr line) then
    match firstNumber line.data with
    | some n => { p with total_tracks := n }
    | none => p
  else if strContains "Processing" line then
    { p with current_track := line, status := "processing" }
  else p

/-! ## Subprocess read loop (`run_gamdl_command`, web_app.py lines 501-556) -/

/-- `timeout_seconds = 600` (web_app.py line 503). -/
def timeout_seconds : Nat := 600

/-- One append to `output_lines` followed by the length-cap of lines
533-535: `if len(output_lines) > 100: output_lines = output_lines[-100:]`. -/
def pushLine (buf : List String) (l : String) : List String :=
  let out := buf ++ [l]
  if out.length > 100 then out.drop (out.length - 100) else out

/-- Mutable state of the read loop: the output buffer and the progress
record of this job. -/
structure LoopSt where
  output_lines : List String
  progress : Progress
deriving DecidableEq

/-- The body of one loop iteration guarded by `if line:` (web_app.py
lines 526-537): strip, append, classify, cap at 100. -/
def stepLine (st : LoopSt) (rawLine : String) : LoopSt :=
  if rawLine = "" then st
  else
    let l := stripStr rawLine
    { output_lines := pushLine st.output_lines l,
      progress := update_progress_from_line st.progress l }

/-- One completed `process.stdout.readline()` call: the returned line
(`""` for no data / EOF), the value of `process.poll()` consulted right
after it, and the value of `time.time()` at the timeout check. -/
structure ReadEvent where
  line : String
  poll : Option Int
  now : Nat

/-- How the read loop of `run_gamdl_command` ends. -/
inductive LoopOutcome where
  | exited (rc : Int) (st : LoopSt)
  | timedOut (st : LoopSt)
  | blocked (st : LoopSt)
deriving DecidableEq

/-- The `while True` read loop (web_app.py lines 505-537).  The event
list holds the readline calls that *complete*; an empty remainder means
`readline()` blocks forever — a process that neither exits nor writes —
in which case no further statement of the task ever runs (`.blocked`).
A completed read first takes the `break` when the line is empty and the
process has exited (line 507), then checks the wall-clock timeout
(lines 511-524), then processes the line (lines 526-537). -/
def runLoop (start : Nat) : LoopSt → List ReadEvent → LoopOutcome
  | st, [] => .blocked st
  | st, e :: rest =>
    if e.line = "" then
      match e.poll with
      | some rc => .exited rc st
      | none =>
        if e.now - start > timeout_seconds then .timedOut st
        else runLoop start (stepLine st e.line) rest
    else
      if e.now - start > timeout_seconds then .timedOut st
      else runLoop start (stepLine st e.line) rest

/-! ## Terminal results (`run_gamdl_command`, web_app.py lines 514-568) -/

/-- A `download_results` entry.  The timestamp and nested progress copy
of the source dicts are not modelled. -/
structure JobResult where
  status : String
  returncode : Option Int := none
  error : Option String := none
  stdout : Option String := none
  command : String := ""
deriving DecidableEq

/-- The timeout result written at web_app.py lines 514-519. -/
def timeoutResult (cmd : String) : JobResult :=
  { status := "timeout",
    error := some "Download timed out after 600 seconds",
    command := cmd }

/-- The final result written at web_app.py lines 543-551:
`'completed' if process.returncode == 0 else 'failed'`, with the exit
code and the retained output tail. -/
def mkFinalResult (rc : Int) (output_lines : List String) (cmd : String) : JobResult :=
  { status := if rc = 0 then "completed" else "failed",
    returncode := some rc,
    stdout := some (String.intercalate "\n" output_lines),
    command := cmd }

/-- The error result written by the `except` at web_app.py lines 558-564. -/
def mkErrorResult (msg cmd : String) : JobResult :=
  { status := "error", error := some msg, command := cmd }

/-- The `download_results` entry produced for a loop outcome, if the
task ever reaches a terminal statement. -/
def recordLoop (cmd : String) : LoopOutcome → Option JobResult
  | .exited rc st => some (mkFinalResult rc st.output_lines cmd)
  | .timedOut _ => some (timeoutResult cmd)
  | .blocked _ => none

/-- Whether the job id is still in `active_downloads` after the loop:
both terminal paths delete it (lines 520-521 and 553-554); a blocked
loop never reaches either deletion. -/
def stillActive : LoopOutcome → Bool
  | .blocked _ => true
  | _ => false

/-! ## Registry machine (`active_downloads` / `download_results`)

A small-step machine for the statements of `run_gamdl_command` that
touch the two process-wide maps, projected onto one job id:
`active`/`results` record whether the id is a key of `active_downloads`
resp. `download_results`.  Each Python statement is one atomic step; a
status poll may observe the state between any two steps. -/

/-- Program points of the background thread between map mutations. -/
inductive RegPC where
  | started
  | running
  | timeoutRecorded
  | exitRecorded
  | errRecorded
  | done
deriving DecidableEq

/-- Observable registry state for one job id. -/
structure RegSt where
  pc : RegPC
  active : Bool
  results : Bool
deriving DecidableEq

/-- The atomic statements of `run_gamdl_command` acting on the two maps:
insertion into `active_downloads` (line 481), the loop iterations (no
map effect), the three `download_results[download_id] = ...` writes
(lines 514, 543, 559), and the three `del active_downloads[download_id]`
deletions that follow them (lines 520-521, 553-554, 565-566).  An
exception before line 481 jumps straight to the `except` write. -/
inductive RegStep : RegSt → RegSt → Prop where
  | insertActive (a r : Bool) :
      RegStep ⟨.started, a, r⟩ ⟨.running, true, r⟩
  | earlyError (a r : Bool) :
      RegStep ⟨.started, a, r⟩ ⟨.errRecorded, a, true⟩
  | loopIter (a r : Bool) :
      RegStep ⟨.running, a, r⟩ ⟨.running, a, r⟩
  | recordTimeout (a r : Bool) :
      RegStep ⟨.running, a, r⟩ ⟨.timeoutRecorded, a, true⟩
  | recordExit (a r : Bool) :
      RegStep ⟨.running, a, r⟩ ⟨.exitRecorded, a, true⟩
  | recordError (a r : Bool) :
      RegStep ⟨.running, a, r⟩ ⟨.errRecorded, a, true⟩
  | deleteAfterTimeout (a r : Bool) :
      RegStep ⟨.timeoutRecorded, a, r⟩ ⟨.done, false, r⟩
  | deleteAfterExit (a r : Bool) :
      RegStep ⟨.exitRecorded, a, r⟩ ⟨.done, false, r⟩
  | deleteAfterError (a r : Bool) :
      RegStep ⟨.errRecorded, a, r⟩ ⟨.done, false, r⟩

/-- State at submission: the id is in neither map (the `/download` route
only touches `download_progress` before starting the thread). -/
def regInit : RegSt := ⟨.started, false, false⟩

/-- Observable states of one job's registry history. -/
def RegReach (s : RegSt) : Prop :=
  Relation.ReflTransGen RegStep regInit s

/-- The state after `download_results[download_id] = {...}` at line 543
and before `del active_downloads[download_id]` at line 554. -/
def regBothState : RegSt := ⟨.exitRecorded, true, true⟩

/-- The pc values lying between a `download_results` write and the
matching `del active_downloads`. -/
def inDeleteWindow : RegPC → Prop
  | .timeoutRecorded => True
  | .exitRecorded => True
  | .errRecorded => True
  | _ => False

/-- The inductive invariant of the registry machine: what each program
point of `run_gamdl_command` guarantees about the two maps. -/
def RegInv (s : RegSt) : Prop :=
  match s.pc with
  | .started => s.active = false ∧ s.results = false
  | .running => s.active = true ∧ s.results = false
  | .timeoutRecorded => s.active = true ∧ s.results = true
  | .exitRecorded => s.active = true ∧ s.results = true
  | .errRecorded => s.results = true
  | .done => s.active = false ∧ s.results = true

/-! ## Remaining small definitions used by the theorem statements -/

/-- Number of capturing groups of a pattern. -/
def countCaps : List PatElem → Nat
  | [] => 0
  | .lit _ :: ps => countCaps ps
  | .plus _ cap :: ps => (if cap then 1 else 0) + countCaps ps

/-- A string that does not look like a flag. -/
def noDash (s : String) : Bool := !(startsWithL "-".data s.data)

/-- An optional string option whose value, if any, does not look like a flag. -/
def optNoDash : Option String → Bool
  | none => true
  | some s => noDash s

/-- All string-valued fields of a `JobOptions` are flag-free. -/
def optValuesOk (o : JobOptions) : Bool :=
  optNoDash o.cookies_path && optNoDash o.output_path && optNoDash o.language &&
  optNoDash o.cover_format && optNoDash o.codec_song && optNoDash o.quality_post &&
  optNoDash o.log_level

/-- The fresh progress record installed by the `/download` route
(web_app.py lines 678-686). -/
def initProgress : Progress :=
  { total_tracks := 0, completed_tracks := 0,
    current_track := "Initializing...", status := "starting" }

/-- Loop state at the start of the read loop (`output_lines = []`,
web_app.py line 501). -/
def initLoopSt : LoopSt :=
  { output_lines := [], progress := initProgress }

/-! ## Helper lemmas about the regex model -/

theorem firstSome_ne_none_iff {α β : Type} (f : α → Option β) (l : List α) :
    firstSome f l ≠ none ↔ ∃ a ∈ l, f a ≠ none := by
  induction l with
  | nil => simp [firstSome]
  | cons a t ih =>
    cases h : f a with
    | some b =>
      simp only [firstSome, h]
      constructor
      · intro _
        exact ⟨a, List.mem_cons_self a t, by simp [h]⟩
      · intro _
        simp
    | none =>
      simp only [firstSome, h]
      rw [ih]
      constructor
      · rintro ⟨x, hx, hfx⟩
        exact ⟨x, List.mem_cons_of_mem a hx, hfx⟩
      · rintro ⟨x, hx, hfx⟩
        rcases List.mem_cons.mp hx with rfl | hx2
        · exact absurd h hfx
        · exact ⟨x, hx2, hfx⟩

theorem firstSome_eq_some {α β : Type} (f : α → Option β) (l : List α) (b : β) :
    firstSome f l = some b → ∃ a ∈ l, f a = some b := by
  induction l with
  | nil => intro h; simp [firstSome] at h
  | cons a t ih =>
    intro hh
    cases h : f a with
    | some c =>
      simp only [firstSome, h] at hh
      exact ⟨a, List.mem_cons_self a t, h.trans hh⟩
    | none =>
      simp only [firstSome, h] at hh
      obtain ⟨x, hx, hfx⟩ := ih hh
      exact ⟨x, List.mem_cons_of_mem a hx, hfx⟩

theorem matchElems_plus_ne_none (cls : Char → Bool) (cap : Bool) (ps : List PatElem)
    (s : List Char) :
    matchElems (.plus cls cap :: ps) s ≠ none ↔
      ∃ pr ∈ splitsDesc cls s, matchElems ps pr.2 ≠ none := by
  have h0 : matchElems (.plus cls cap :: ps) s = firstSome
      (fun pr => (matchElems ps pr.2).map (fun gs => if cap then pr.1 :: gs else gs))
      (splitsDesc cls s) := rfl
  rw [h0, firstSome_ne_none_iff]
  constructor
  · rintro ⟨pr, hpr, h⟩
    refine ⟨pr, hpr, ?_⟩
    intro hnone
    rw [hnone] at h
    exact h rfl
  · rintro ⟨pr, hpr, h⟩
    refine ⟨pr, hpr, ?_⟩
    intro hnone
    rw [Option.map_eq_none'] at hnone
    exact h hnone

theorem matchElems_append_ne_none (ps qs : List PatElem) :
    ∀ s : List Char, matchElems (ps ++ qs) s ≠ none → matchElems ps s ≠ none := by
  induction ps with
  | nil =>
    intro s _
    simp [matchElems]
  | cons e ps ih =>
    intro s h
    cases e with
    | lit t =>
      rw [List.cons_append] at h
      simp only [matchElems] at h ⊢
      by_cases hs : startsWithL t s = true
      · rw [if_pos hs] at h ⊢
        exact ih _ h
      · rw [if_neg hs] at h
        exact absurd rfl h
    | plus cls cap =>
      rw [List.cons_append] at h
      rw [matchElems_plus_ne_none] at h ⊢
      obtain ⟨pr, hpr, hm⟩ := h
      exact ⟨pr, hpr, ih _ hm⟩

theorem matchElems_plus_flag (cls : Char → Bool) (c1 c2 : Bool) (ps : List PatElem)
    (s : List Char) :
    matchElems (.plus cls c1 :: ps) s ≠ none → matchElems (.plus cls c2 :: ps) s ≠ none := by
  rw [matchElems_plus_ne_none, matchElems_plus_ne_none]
  exact id

theorem matchElems_mono_append (t1 t2 : List PatElem)
    (hmono : ∀ s, matchElems t1 s ≠ none → matchElems t2 s ≠ none) :
    ∀ (common : List PatElem) (s : List Char),
      matchElems (common ++ t1) s ≠ none → matchElems (common ++ t2) s ≠ none := by
  intro common
  induction common with
  | nil => simpa using hmono
  | cons e cs ih =>
    intro s h
    cases e with
    | lit t =>
      rw [List.cons_append] at h ⊢
      simp only [matchElems] at h ⊢
      by_cases hs : startsWithL t s = true
      · rw [if_pos hs] at h ⊢
        exact ih _ h
      · rw [if_neg hs] at h
        exact absurd rfl h
    | plus cls cap =>
      rw [List.cons_append] at h ⊢
      rw [matchElems_plus_ne_none] at h ⊢
      obtain ⟨pr, hpr, hm⟩ := h
      exact ⟨pr, hpr, ih _ hm⟩

theorem reSearch_mono (p1 p2 : List PatElem)
    (hmono : ∀ s, matchElems p1 s ≠ none → matchElems p2 s ≠ none) :
    ∀ s : List Char, reSearch p1 s ≠ none → reSearch p2 s ≠ none := by
  intro s
  induction s with
  | nil =>
    intro h
    simp only [reSearch] at h ⊢
    exact hmono _ h
  | cons c t ih =>
    intro h
    simp only [reSearch] at h ⊢
    cases h1 : matchElems p1 (c :: t) with
    | some gs =>
      have h2 : matchElems p2 (c :: t) ≠ none := hmono _ (by rw [h1]; simp)
      cases h2m : matchElems p2 (c :: t) with
      | some gs2 => simp
      | none => exact absurd h2m h2
    | none =>
      rw [h1] at h
      have h3 := ih h
      cases h2m : matchElems p2 (c :: t) with
      | some gs2 => simp
      | none => exact h3

theorem matchElems_groups_length :
    ∀ (ps : List PatElem) (s : List Char) (gs : List (List Char)),
      matchElems ps s = some gs → gs.length = countCaps ps := by
  intro ps
  induction ps with
  | nil =>
    intro s gs h
    simp only [matchElems] at h
    cases h
    simp [countCaps]
  | cons e ps ih =>
    intro s gs h
    cases e with
    | lit t =>
      simp only [matchElems] at h
      by_cases hs : startsWithL t s = true
      · rw [if_pos hs] at h
        simpa [countCaps] using ih _ _ h
      · rw [if_neg hs] at h
        exact absurd h (by simp)
    | plus cls cap =>
      simp only [matchElems] at h
      obtain ⟨pr, _, hf⟩ := firstSome_eq_some _ _ _ h
      cases hm : matchElems ps pr.2 with
      | none => rw [hm] at hf; simp at hf
      | some gs0 =>
        rw [hm] at hf
        simp only [Option.map_some'] at hf
        have hlen := ih _ _ hm
        cases cap with
        | true =>
          have hgs : pr.1 :: gs0 = gs := by simpa using hf
          rw [← hgs]
          simp [countCaps, hlen]
          omega
        | false =>
          have hgs : gs0 = gs := by simpa using hf
          rw [← hgs]
          simp [countCaps, hlen]

theorem song_match_implies_album_match :
    ∀ url : List Char, reSearch songPat url ≠ none → reSearch albumPat url ≠ none := by
  have tail : ∀ s, matchElems [PatElem.plus notSlash false, .lit "/".data, .plus isDigitC true,
      .lit "?i=".data, .plus isDigitC true] s ≠ none →
      matchElems [PatElem.plus notSlash true, .lit "/".data, .plus isDigitC true] s ≠ none := by
    intro s h
    have h1 : matchElems ([PatElem.plus notSlash false, .lit "/".data, .plus isDigitC true] ++
        [PatElem.lit "?i=".data, .plus isDigitC true]) s ≠ none := h
    have h2 := matchElems_append_ne_none _ _ s h1
    exact matchElems_plus_flag notSlash false true _ s h2
  have lift := matchElems_mono_append _ _ tail
      [PatElem.lit "music.apple.com/".data, .plus notSlash false, .lit "/album/".data]
  exact reSearch_mono songPat albumPat (fun s hs => lift s hs)

/-! ## C3 — URL classifier -/

/-- C3 (counterexample): the claim states that a song URL of the form
`.../album/<name>/<id>?i=<track-id>` classifies as kind `song`.  It does
not: the `patterns` dict of `parse_apple_music_url` is iterated in
insertion order, the album pattern is tried first and also matches every
such URL, so the result has kind `album` (carrying the album id, not the
track id). -/
theorem C3_counterexample :
    reSearch songPat
      "https://music.apple.com/us/album/some-name/1234567890?i=1450695739".data ≠ none
  ∧ (parse_apple_music_url
      "https://music.apple.com/us/album/some-name/1234567890?i=1450695739").type = "album"
  ∧ (parse_apple_music_url
      "https://music.apple.com/us/album/some-name/1234567890?i=1450695739").type ≠ "song" := by
  refine ⟨by decide, by decide, by decide⟩

/-- C3 (amended): `parse_apple_music_url` tries the album, playlist, song
and artist patterns in that order and returns the kind and second
captured group of the first pattern that matches; a URL matching no
pattern yields the `unknown` record without throwing.  Because the album
pattern is tried first and matches every URL the song pattern matches,
song-shaped URLs `.../album/<name>/<id>?i=<track-id>` classify as kind
`album` (the song branch is unreachable).  The album example of the
claim classifies to kind `album` with id `1234567890`. -/
theorem C3_url_classifier :
    (∀ url : String, ∀ g1 g2 rest, reSearch albumPat url.data = some (g1 :: g2 :: rest) →
      (parse_apple_music_url url).type = "album" ∧
        (parse_apple_music_url url).id = String.mk g2)
  ∧ (∀ url : String, ∀ g1 g2 rest, reSearch albumPat url.data = none →
      reSearch playlistPat url.data = some (g1 :: g2 :: rest) →
      (parse_apple_music_url url).type = "playlist" ∧
        (parse_apple_music_url url).id = String.mk g2)
  ∧ (∀ url : String, ∀ g1 g2 rest, reSearch albumPat url.data = none →
      reSearch playlistPat url.data = none → reSearch songPat url.data = none →
      reSearch artistPat url.data = some (g1 :: g2 :: rest) →
      (parse_apple_music_url url).type = "artist" ∧
        (parse_apple_music_url url).id = String.mk g2)
  ∧ (∀ url : String, reSearch albumPat url.data = none →
      reSearch playlistPat url.data = none → reSearch songPat url.data = none →
      reSearch artistPat url.data = none →
      parse_apple_music_url url =
        { url := url, type := "unknown", title := "Unknown Content",
          id := "unknown", estimated_tracks := .int 1 })
  ∧ (∀ url : String, reSearch songPat url.data ≠ none →
      (parse_apple_music_url url).type = "album")
  ∧ (parse_apple_music_url "https://music.apple.com/us/album/some-name/1234567890").type
      = "album"
  ∧ (parse_apple_music_url "https://music.apple.com/us/album/some-name/1234567890").id
      = "1234567890" := by
  refine ⟨?_, ?_, ?_, ?_, ?_, by decide, by decide⟩
  · intro url g1 g2 rest h
    constructor <;> simp [parse_apple_music_url, h, mkParsedMeta]
  · intro url g1 g2 rest h1 h2
    constructor <;> simp [parse_apple_music_url, h1, h2, mkParsedMeta]
  · intro url g1 g2 rest h1 h2 h3 h4
    constructor <;> simp [parse_apple_music_url, h1, h2, h3, h4, mkParsedMeta]
  · intro url h1 h2 h3 h4
    simp [parse_apple_music_url, h1, h2, h3, h4]
  · intro url h
    have ha := song_match_implies_album_match url.data h
    cases hres : reSearch albumPat url.data with
    | none => exact absurd hres ha
    | some gs =>
      have hlen : gs.length = countCaps albumPat := by
        obtain ⟨a, _, hm⟩ :=
          (by
            clear ha h
            induction url.data with
            | nil => exact fun hh => ⟨[], by simp, hh⟩
            | cons c t ih =>
              intro hh
              simp only [reSearch] at hh
              cases hm2 : matchElems albumPat (c :: t) with
              | some gs2 =>
                rw [hm2] at hh
                cases hh
                exact ⟨c :: t, by simp, hm2⟩
              | none =>
                rw [hm2] at hh
                obtain ⟨a, _, hm3⟩ := ih hh
                exact ⟨a, trivial, hm3⟩
           : reSearch albumPat url.data = some gs →
               ∃ a : List Char, True ∧ matchElems albumPat a = some gs) hres
        exact matchElems_groups_length _ _ _ hm
      have hcc : countCaps albumPat = 2 := by decide
      rw [hcc] at hlen
      cases gs with
      | nil => simp at hlen
      | cons g1 tl =>
        cases tl with
        | nil => simp at hlen
        | cons g2 tl2 =>
          simp [parse_apple_music_url, hres, mkParsedMeta]

/-- C3 (witness): the amended classifier theorem applied to the concrete
album URL of the spec example. -/
theorem C3_url_classifier_witness :
    (parse_apple_music_url "https://music.apple.com/us/album/some-name/1234567890").type
      = "album"
  ∧ (parse_apple_music_url "https://music.apple.com/us/album/some-name/1234567890").id
      = "1234567890" :=
  C3_url_classifier.1 "https://music.apple.com/us/album/some-name/1234567890"
    "some-name".data "1234567890".data [] (by decide)

/-! ## C1 — metadata batch fetcher -/

/-- C1 (counterexample): the claim states that when the metadata fetch
for a URL fails (the API call or mapping raises), the record for that
URL has kind `error`.  It does not: `get_real_metadata_with_gamdl`
catches its own exceptions and returns `None`, so the loop falls back to
the classifier-only record, whose kind is the parsed kind — here `album`,
not `error`.  (The `error`-record branch at lines 111-119 is reachable
only by an exception escaping the loop body, and every callee catches
internally.) -/
theorem C1_counterexample :
    (get_metadata_from_urls (some (fun _ => Except.error "API request failed"))
        ["https://music.apple.com/us/album/some-name/1234567890"]).map (fun m => m.type)
      = ["album"] := by
  decide

/-- C1 (amended): `get_metadata_from_urls` returns exactly one record per
input URL, in input order; the record of each URL depends only on that
URL (so the records of the other URLs are the same as they would be had
the failing URL not been in the batch, and no per-URL failure aborts the
batch); and a URL whose API fetch raises falls back to its
classifier-only record (parsed kind and id), not to an `error`-kind
record. -/
theorem C1_metadata_batch :
    (∀ (api : Option FetchOracle) (urls : List String),
      (get_metadata_from_urls api urls).length = urls.length)
  ∧ (∀ (api : Option FetchOracle) (pre post : List String) (u : String),
      get_metadata_from_urls api (pre ++ u :: post)
        = get_metadata_from_urls api pre
          ++ metadataForUrl api u :: get_metadata_from_urls api post)
  ∧ (∀ (fetch : FetchOracle) (u e : String), fetch u = .error e →
      (parse_apple_music_url u).type ≠ "error" →
      metadataForUrl (some fetch) u = parse_apple_music_url u) := by
  refine ⟨?_, ?_, ?_⟩
  · intro api urls
    simp [get_metadata_from_urls]
  · intro api pre post u
    simp [get_metadata_from_urls]
  · intro fetch u e hf hne
    simp [metadataForUrl, get_real_metadata_with_gamdl, hf, hne]

/-- C1 (witness): the amended batch theorem applied to a concrete
always-failing fetch oracle on the album example URL. -/
theorem C1_metadata_batch_witness :
    metadataForUrl (some (fun _ => Except.error "boom"))
        "https://music.apple.com/us/album/some-name/1234567890"
      = parse_apple_music_url "https://music.apple.com/us/album/some-name/1234567890" :=
  C1_metadata_batch.2.2 (fun _ => Except.error "boom")
    "https://music.apple.com/us/album/some-name/1234567890" "boom" rfl (by decide)

/-! ## C2 — job registry: running map vs results map -/

/-- Every reachable registry state satisfies the inductive invariant. -/
theorem RegInv_holds : ∀ s : RegSt, RegReach s → RegInv s := by
  intro s h
  induction h with
  | refl => exact ⟨rfl, rfl⟩
  | tail hreach hstep ih =>
    cases hstep with
    | insertActive a r =>
      obtain ⟨h1, h2⟩ := ih
      exact ⟨rfl, h2⟩
    | earlyError a r =>
      exact rfl
    | loopIter a r =>
      exact ih
    | recordTimeout a r =>
      obtain ⟨h1, h2⟩ := ih
      exact ⟨h1, rfl⟩
    | recordExit a r =>
      obtain ⟨h1, h2⟩ := ih
      exact ⟨h1, rfl⟩
    | recordError a r =>
      exact rfl
    | deleteAfterTimeout a r =>
      obtain ⟨h1, h2⟩ := ih
      exact ⟨rfl, h2⟩
    | deleteAfterExit a r =>
      obtain ⟨h1, h2⟩ := ih
      exact ⟨rfl, h2⟩
    | deleteAfterError a r =>
      exact ⟨rfl, ih⟩

/-- C2 (counterexample): the claim states that at every observation point
a job id is present in at most one of `active_downloads` and
`download_results`.  The state reached after the
`download_results[download_id] = {...}` write at line 543 and before the
`del active_downloads[download_id]` at line 554 is observable by a
concurrent `/status` poll and has the id in BOTH maps. -/
theorem C2_counterexample :
    RegReach regBothState
  ∧ regBothState.active = true ∧ regBothState.results = true := by
  refine ⟨?_, rfl, rfl⟩
  exact Relation.ReflTransGen.head (RegStep.insertActive false false)
    (Relation.ReflTransGen.head (RegStep.recordExit true false) Relation.ReflTransGen.refl)

/-- C2 (amended): except for the two-statement termination window in
which the result has been written but the running entry not yet deleted
(states whose pc lies in `inDeleteWindow`, where the id is briefly in
both maps), a job id is in at most one of the two maps; a terminated job
is in the results map and not in the running map; the results entry,
once written, is never removed; and after the result is written the id
is never re-inserted into the running map. -/
theorem C2_registry :
    (∀ s : RegSt, RegReach s → s.active = true → s.results = true → inDeleteWindow s.pc)
  ∧ (∀ s : RegSt, RegReach s → s.pc = .done → s.active = false ∧ s.results = true)
  ∧ (∀ s t : RegSt, RegStep s t → s.results = true → t.results = true)
  ∧ (∀ s t : RegSt, RegReach s → RegStep s t → s.results = true → t.active = true →
      s.active = true) := by
  refine ⟨?_, ?_, ?_, ?_⟩
  · intro s h ha hr
    have inv := RegInv_holds s h
    obtain ⟨pc, a, r⟩ := s
    cases pc
    · exact absurd hr (by rw [inv.2]; simp)
    · exact absurd hr (by rw [inv.2]; simp)
    · trivial
    · trivial
    · trivial
    · exact absurd ha (by rw [inv.1]; simp)
  · intro s h hpc
    have inv := RegInv_holds s h
    obtain ⟨pc, a, r⟩ := s
    cases pc <;> simp_all [RegInv]
  · intro s t hstep hr
    cases hstep <;> first | rfl | exact hr
  · intro s t hreach hstep hr ha
    cases hstep with
    | insertActive a r =>
      have inv := RegInv_holds _ hreach
      rw [inv.2] at hr
      exact absurd hr (by simp)
    | earlyError a r => exact ha
    | loopIter a r => exact ha
    | recordTimeout a r => exact ha
    | recordExit a r => exact ha
    | recordError a r => exact ha
    | deleteAfterTimeout a r => exact absurd ha (by simp)
    | deleteAfterExit a r => exact absurd ha (by simp)
    | deleteAfterError a r => exact absurd ha (by simp)

/-- C2 (witness): the amended registry theorem applied to the reachable
terminated state: the id is out of the running map and in the results
map. -/
theorem C2_registry_witness :
    (⟨RegPC.done, false, true⟩ : RegSt).active = false
  ∧ (⟨RegPC.done, false, true⟩ : RegSt).results = true := by
  refine C2_registry.2.1 ⟨RegPC.done, false, true⟩ ?_ rfl
  exact Relation.ReflTransGen.head (RegStep.insertActive false false)
    (Relation.ReflTransGen.head (RegStep.recordExit true false)
      (Relation.ReflTransGen.head (RegStep.deleteAfterExit true true)
        Relation.ReflTransGen.refl))

/-! ## C4 — wall-clock timeout of the read loop -/

/-- C4 (counterexample): the claim states the timeout fires regardless of
whether the process produces output.  It does not: `process.stdout.readline()`
is a blocking call and the timeout is only checked after a readline
completes, so for a process that never exits and never writes (no
completed readline events) the task stays blocked — no `timeout` result
is recorded and the id is never removed from the running map, no matter
how much wall-clock time passes. -/
theorem C4_counterexample :
    runLoop 0 initLoopSt [] = .blocked initLoopSt
  ∧ recordLoop "python3 -m gamdl" (runLoop 0 initLoopSt []) = none
  ∧ stillActive (runLoop 0 initLoopSt []) = true :=
  ⟨rfl, rfl, rfl⟩

/-- C4 (amended): the first readline that completes more than 600 seconds
after process start without taking the exit break makes the task record
a `timeout` result, and both terminal paths remove the id from the
running map; a `timeout` outcome can only be produced by an event past
the deadline; but a silent never-exiting process (no completed readline)
leaves the loop blocked forever. -/
theorem C4_timeout :
    (∀ (start : Nat) (st : LoopSt) (e : ReadEvent) (rest : List ReadEvent),
      (e.line = "" → e.poll = none) → e.now - start > timeout_seconds →
      runLoop start st (e :: rest) = .timedOut st)
  ∧ (∀ (start : Nat) (st st2 : LoopSt) (evs : List ReadEvent),
      runLoop start st evs = .timedOut st2 →
      ∃ e ∈ evs, e.now - start > timeout_seconds)
  ∧ (∀ (start : Nat) (st : LoopSt), runLoop start st [] = .blocked st)
  ∧ (∀ (cmd : String) (st : LoopSt),
      recordLoop cmd (.timedOut st) = some (timeoutResult cmd)
      ∧ (timeoutResult cmd).status = "timeout"
      ∧ stillActive (.timedOut st) = false) := by
  refine ⟨?_, ?_, ?_, ?_⟩
  · intro start st e rest hbreak ht
    simp only [runLoop]
    by_cases hl : e.line = ""
    · rw [if_pos hl, hbreak hl]
      simp only [if_pos ht]
    · rw [if_neg hl, if_pos ht]
  · intro start st st2 evs
    induction evs generalizing st with
    | nil =>
      intro h
      simp [runLoop] at h
    | cons e rest ih =>
      intro h
      simp only [runLoop] at h
      by_cases hl : e.line = ""
      · rw [if_pos hl] at h
        cases hp : e.poll with
        | some rc =>
          rw [hp] at h
          simp at h
        | none =>
          rw [hp] at h
          by_cases ht : e.now - start > timeout_seconds
          · exact ⟨e, List.mem_cons_self e rest, ht⟩
          · rw [if_neg ht] at h
            obtain ⟨e2, he2, ht2⟩ := ih _ h
            exact ⟨e2, List.mem_cons_of_mem e he2, ht2⟩
      · rw [if_neg hl] at h
        by_cases ht : e.now - start > timeout_seconds
        · exact ⟨e, List.mem_cons_self e rest, ht⟩
        · rw [if_neg ht] at h
          obtain ⟨e2, he2, ht2⟩ := ih _ h
          exact ⟨e2, List.mem_cons_of_mem e he2, ht2⟩
  · intro start st
    rfl
  · intro cmd st
    exact ⟨rfl, rfl, rfl⟩

/-- C4 (witness): the amended timeout theorem applied to a concrete
readline completing 601 seconds after start while the process is still
running. -/
theorem C4_timeout_witness :
    runLoop 0 initLoopSt [{ line := "still working", poll := none, now := 601 }]
      = .timedOut initLoopSt :=
  C4_timeout.1 0 initLoopSt { line := "still working", poll := none, now := 601 } []
    (fun _ => rfl) (by decide)

/-! ## C5 — bounded output buffer -/

theorem pushLine_length_le (buf : List String) (l : String) (_h : buf.length ≤ 100) :
    (pushLine buf l).length ≤ 100 := by
  simp only [pushLine]
  by_cases hl : (buf ++ [l]).length > 100
  · rw [if_pos hl]
    simp only [List.length_drop]
    omega
  · rw [if_neg hl]
    omega

theorem pushLine_eq_drop (buf : List String) (l : String) (h : buf.length ≤ 100) :
    pushLine buf l = (buf ++ [l]).drop ((buf ++ [l]).length - 100) := by
  simp only [pushLine]
  by_cases hl : (buf ++ [l]).length > 100
  · rw [if_pos hl]
  · rw [if_neg hl]
    have h0 : (buf ++ [l]).length - 100 = 0 := by
      simp only [List.length_append, List.length_singleton] at hl ⊢
      omega
    rw [h0, List.drop_zero]

theorem foldl_pushLine (ls : List String) :
    ∀ buf : List String, buf.length ≤ 100 →
      List.foldl pushLine buf ls = (buf ++ ls).drop ((buf ++ ls).length - 100) := by
  induction ls with
  | nil =>
    intro buf h
    simp only [List.foldl_nil, List.append_nil]
    have h0 : buf.length - 100 = 0 := by omega
    rw [h0, List.drop_zero]
  | cons l ls ih =>
    intro buf h
    simp only [List.foldl_cons]
    rw [ih (pushLine buf l) (pushLine_length_le buf l h)]
    rw [pushLine_eq_drop buf l h]
    have hd : (buf ++ [l]).length - 100 ≤ (buf ++ [l]).length := Nat.sub_le _ _
    rw [← List.drop_append_of_le_length hd]
    rw [List.drop_drop]
    have hlist : (buf ++ [l]) ++ ls = buf ++ l :: ls := by simp
    rw [hlist]
    have harith : ((buf ++ [l]).length - 100)
        + (((buf ++ l :: ls).drop ((buf ++ [l]).length - 100)).length - 100)
        = (buf ++ l :: ls).length - 100 := by
      simp only [List.length_drop, List.length_append, List.length_cons, List.length_nil]
      omega
    rw [harith]

/-- C5: starting from the empty buffer installed at job start, after any
sequence of appended output lines the buffer of `run_gamdl_command`
holds at most 100 entries, and its contents are exactly the most
recently appended lines in their original order (`pushLine` is the
append-then-cap of web_app.py lines 528-535; `stepLine` feeds it). -/
theorem C5_output_buffer :
    ∀ ls : List String,
      (List.foldl pushLine [] ls).length ≤ 100
      ∧ List.foldl pushLine [] ls = ls.drop (ls.length - 100) := by
  intro ls
  have h := foldl_pushLine ls [] (by simp)
  simp only [List.nil_append] at h
  constructor
  · rw [h]
    simp only [List.length_drop]
    omega
  · exact h

/-! ## C6 — exit-code to status mapping -/

/-- C6: when the read loop takes the exit break, the recorded
`JobResult` has status `completed` exactly when the exit code is 0, and
status `failed` with the exit code in `returncode` when it is non-zero;
an uncaught exception records an `error` result instead; in particular
exit code 1 yields status `failed` and returncode 1. -/
theorem C6_exit_status :
    (∀ (start : Nat) (st : LoopSt) (e : ReadEvent) (rest : List ReadEvent) (rc : Int),
      e.line = "" → e.poll = some rc → runLoop start st (e :: rest) = .exited rc st)
  ∧ (∀ (cmd : String) (rc : Int) (st : LoopSt),
      ∃ r, recordLoop cmd (.exited rc st) = some r
        ∧ (r.status = "completed" ↔ rc = 0)
        ∧ (rc ≠ 0 → r.status = "failed" ∧ r.returncode = some rc))
  ∧ (∀ msg cmd : String, (mkErrorResult msg cmd).status = "error")
  ∧ ((mkFinalResult 1 [] "python3 -m gamdl").status = "failed"
      ∧ (mkFinalResult 1 [] "python3 -m gamdl").returncode = some 1) := by
  refine ⟨?_, ?_, ?_, by decide⟩
  · intro start st e rest rc hl hp
    simp only [runLoop, if_pos hl, hp]
  · intro cmd rc st
    refine ⟨mkFinalResult rc st.output_lines cmd, rfl, ?_, ?_⟩
    · by_cases h : rc = 0
      · simp [mkFinalResult, h]
      · simp only [mkFinalResult, if_neg h]
        constructor
        · intro hh
          exact absurd hh (by decide)
        · intro hh
          exact absurd hh h
    · intro h
      simp [mkFinalResult, h]
  · intro msg cmd
    rfl

/-- C6 (witness): the exit-break rule applied to a concrete readline
returning end-of-stream with exit code 1. -/
theorem C6_exit_status_witness :
    runLoop 0 initLoopSt [{ line := "", poll := some 1, now := 5 }]
      = .exited 1 initLoopSt :=
  C6_exit_status.1 0 initLoopSt { line := "", poll := some 1, now := 5 } [] 1 rfl rfl

/-! ## C8 — progress line classifier -/

/-- C8 (counterexample): the claim's first rule, read with its quoted
lowercase keywords, requires a line mentioning "downloading" and "track"
to set status `downloading`.  The source test is the case-sensitive
`'Downloading' in line`, so the all-lowercase line "downloading track 1"
— which does contain both keywords — matches no rule and leaves every
structured field unchanged. -/
theorem C8_counterexample :
    strContains "downloading" "downloading track 1" = true
  ∧ strContains "track" (lowerStr "downloading track 1") = true
  ∧ update_progress_from_line initProgress "downloading track 1" = initProgress
  ∧ (update_progress_from_line initProgress "downloading track 1").status ≠ "downloading" := by
  refine ⟨by decide, by decide, by decide, by decide⟩

/-- C8 (amended): the keyword rules apply in source priority order with
the source's exact casing: a line containing `Downloading` (and `track`
case-insensitively) sets `current_track` and status `downloading`;
otherwise `Downloaded` or `Finished` increments `completed_tracks` (and
sets status `downloading`); otherwise `Error` or `Failed` sets status
`error` and embeds the line in `current_track`; otherwise a line whose
lowercasing contains `tracks found` sets `total_tracks` to its first
embedded integer; otherwise `Processing` sets status `processing`; a
line matching no rule leaves all structured fields unchanged. -/
theorem C8_line_rules :
    ∀ (p : Progress) (line : String),
      ((strContains "Downloading" line && strContains "track" (lowerStr line)) = true →
        update_progress_from_line p line
          = { p with current_track := line, status := "downloading" })
    ∧ ((strContains "Downloading" line && strContains "track" (lowerStr line)) = false →
        (strContains "Downloaded" line || strContains "Finished" line) = true →
        update_progress_from_line p line
          = { p with completed_tracks := p.completed_tracks + 1, status := "downloading" })
    ∧ ((strContains "Downloading" line && strContains "track" (lowerStr line)) = false →
        (strContains "Downloaded" line || strContains "Finished" line) = false →
        (strContains "Error" line || strContains "Failed" line) = true →
        update_progress_from_line p line
          = { p with status := "error", current_track := "Error: " ++ line })
    ∧ ((strContains "Downloading" line && strContains "track" (lowerStr line)) = false →
        (strContains "Downloaded" line || strContains "Finished" line) = false →
        (strContains "Error" line || strContains "Failed" line) = false →
        strContains "tracks found" (lowerStr line) = true →
        (∀ n, firstNumber line.data = some n →
          update_progress_from_line p line = { p with total_tracks := n })
        ∧ (firstNumber line.data = none → update_progress_from_line p line = p))
    ∧ ((strContains "Downloading" line && strContains "track" (lowerStr line)) = false →
        (strContains "Downloaded" line || strContains "Finished" line) = false →
        (strContains "Error" line || strContains "Failed" line) = false →
        strContains "tracks found" (lowerStr line) = false →
        strContains "Processing" line = true →
        update_progress_from_line p line
          = { p with current_track := line, status := "processing" })
    ∧ ((strContains "Downloading" line && strContains "track" (lowerStr line)) = false →
        (strContains "Downloaded" line || strContains "Finished" line) = false →
        (strContains "Error" line || strContains "Failed" line) = false →
        strContains "tracks found" (lowerStr line) = false →
        strContains "Processing" line = false →
        update_progress_from_line p line = p) := by
  intro p line
  refine ⟨?_, ?_, ?_, ?_, ?_, ?_⟩
  · intro h1
    simp [update_progress_from_line, h1]
  · intro h1 h2
    simp [update_progress_from_line, h1, h2]
  · intro h1 h2 h3
    simp [update_progress_from_line, h1, h2, h3]
  · intro h1 h2 h3 h4
    constructor
    · intro n hn
      simp [update_progress_from_line, h1, h2, h3, h4, hn]
    · intro hn
      simp [update_progress_from_line, h1, h2, h3, h4, hn]
  · intro h1 h2 h3 h4 h5
    simp [update_progress_from_line, h1, h2, h3, h4, h5]
  · intro h1 h2 h3 h4 h5
    simp [update_progress_from_line, h1, h2, h3, h4, h5]

/-- C8 (witness): the first rule applied to a concrete correctly-cased
line. -/
theorem C8_line_rules_witness :
    update_progress_from_line initProgress "Downloading track 1 of 10"
      = { initProgress with
          current_track := "Downloading track 1 of 10", status := "downloading" } :=
  (C8_line_rules initProgress "Downloading track 1 of 10").1 (by decide)

/-! ## C9 — total_estimated_tracks aggregation -/

theorem foldl_add_eq_map_sum {α : Type} (f : α → Int) (l : List α) :
    ∀ acc : Int, l.foldl (fun a x => a + f x) acc = acc + (l.map f).sum := by
  induction l with
  | nil => intro acc; simp
  | cons x t ih =>
    intro acc
    simp only [List.foldl_cons, List.map_cons, List.sum_cons, ih]
    ring

/-- C9: the `total_estimated_tracks` of every preview response equals
the sum, over the returned records, of `estimated_tracks` when that
value is an integer and 1 otherwise; in the concrete batch below the
album record fetched from the API contributes its track count 12 while
the unrecognized URL contributes 1. -/
theorem C9_total_estimated :
    (∀ (api : Option FetchOracle) (raw : String),
      (preview_metadata api raw).total_estimated_tracks
        = ((preview_metadata api raw).metadata.map
            (fun item =>
              match item.estimated_tracks with
              | .int n => n
              | .str _ => 1)).sum)
  ∧ (preview_metadata
        (some (fun u =>
          if u = "https://music.apple.com/us/album/some-name/1234567890" then
            Except.ok (some { url := u, type := "album", title := "Some Name",
                              id := "1234567890", estimated_tracks := .int 12 })
          else Except.ok none))
        ("https://music.apple.com/us/album/some-name/1234567890\nhttps://example.com/x")
      ).total_estimated_tracks = 13 := by
  constructor
  · intro api raw
    exact (foldl_add_eq_map_sum
        (fun item =>
          match item.estimated_tracks with
          | .int n => n
          | .str _ => 1)
        (get_metadata_from_urls api (splitUrls raw)) 0).trans (zero_add _)
  · decide

/-! ## C10 — artist URL detection by raw substring -/

/-- C10: the `/download` route rejects with the artist-options error
exactly when `artist_download_type` is falsy and some submitted URL
contains the substring `artist` anywhere in it; the test is a substring
test on the raw URL, not a classification — the non-artist album URL
`.../album/the-artist/1234567890` (kind `album`) also triggers it — and
the artist-expansion step of `run_gamdl_command` selects URLs by the
same substring test. -/
theorem C10_artist_gate :
    (∀ (raw : String) (adt : Option String), stripStr raw ≠ "" →
      (download_validate raw adt = .artistRequired ↔
        ((∃ u ∈ splitUrls (stripStr raw), strContains "artist" u = true)
          ∧ truthyOpt adt = false)))
  ∧ ((parse_apple_music_url "https://music.apple.com/us/album/the-artist/1234567890").type
      = "album")
  ∧ (download_validate "https://music.apple.com/us/album/the-artist/1234567890" none
      = .artistRequired)
  ∧ (∀ (oracle : ArtistOracle) (adt : Option String) (url : String),
      strContains "artist" url = false →
      expand_artist_url (some oracle) adt url = [url])
  ∧ (∀ (adt : Option String) (url : String), expand_artist_url none adt url = [url]) := by
  refine ⟨?_, by decide, by decide, ?_, ?_⟩
  · intro raw adt h
    simp only [download_validate]
    rw [if_neg h]
    by_cases hc : ((splitUrls (stripStr raw)).any (fun u => strContains "artist" u)
        && !truthyOpt adt) = true
    · rw [if_pos hc]
      have h1 : ∃ u ∈ splitUrls (stripStr raw), strContains "artist" u = true := by
        rw [← List.any_eq_true]
        cases hA : (splitUrls (stripStr raw)).any (fun u => strContains "artist" u)
        · rw [hA] at hc
          simp at hc
        · rfl
      have h2 : truthyOpt adt = false := by
        cases hB : truthyOpt adt
        · rfl
        · rw [hB] at hc
          simp at hc
      exact ⟨fun _ => ⟨h1, h2⟩, fun _ => rfl⟩
    · rw [if_neg hc]
      constructor
      · intro hh
        exact absurd hh (by simp)
      · rintro ⟨⟨u, hu, hau⟩, hadt⟩
        refine absurd ?_ hc
        have hA : (splitUrls (stripStr raw)).any (fun u => strContains "artist" u) = true :=
          List.any_eq_true.mpr ⟨u, hu, hau⟩
        rw [hA, hadt]
        rfl
  · intro oracle adt url hau
    simp [expand_artist_url, hau]
  · intro adt url
    rfl

/-- C10 (witness): the rejection characterization applied to the concrete
album URL containing the substring `artist`. -/
theorem C10_artist_gate_witness :
    download_validate "https://music.apple.com/us/album/the-artist/1234567890" none
      = DownloadCheck.artistRequired :=
  (C10_artist_gate.1 "https://music.apple.com/us/album/the-artist/1234567890" none
      (by decide)).mpr
    ⟨⟨"https://music.apple.com/us/album/the-artist/1234567890", by decide, by decide⟩, rfl⟩

/-! ## C7 — option-to-argument mapping -/

theorem noDash_ne_of (g x : String) (hg : noDash g = false) (hx : noDash x = true) :
    g ≠ x := by
  intro he
  rw [he, hx] at hg
  exact absurd hg (by simp)

theorem mem_boolFlag (s f : String) (b : Bool) :
    s ∈ boolFlag b f ↔ (s = f ∧ b = true) := by
  cases b <;> simp [boolFlag]

theorem mem_optArg_flag (f : String) (v : Option String) (g : String)
    (hv : optNoDash v = true) (hg : noDash g = false) :
    g ∈ optArg f v ↔ (g = f ∧ truthyOpt v = true) := by
  cases v with
  | none => simp [optArg, truthyOpt]
  | some x =>
    by_cases hx : x = ""
    · simp [optArg, truthyOpt, hx]
    · have hgx : g ≠ x := noDash_ne_of g x hg hv
      simp [optArg, truthyOpt, hx, hgx]

theorem cookiesArgs_cases (fs : String → Bool) (dc : String) (v : Option String) :
    cookiesArgs fs dc v = []
    ∨ ∃ s0, cookiesArgs fs dc v = ["-c", s0] ∧ (v = some s0 ∨ s0 = dc) := by
  by_cases htv : truthyOpt v = true
  · cases v with
    | none => simp [truthyOpt] at htv
    | some x =>
      by_cases hx : x = ""
      · rw [hx] at htv
        simp [truthyOpt] at htv
      · by_cases hfx : fs x = true
        · right
          exact ⟨x, by simp [cookiesArgs, htv, hx, hfx], Or.inl rfl⟩
        · left
          simp [cookiesArgs, htv, hx, hfx]
  · by_cases hfd : fs dc = true
    · by_cases hdc0 : dc = ""
      · subst hdc0
        left
        simp [cookiesArgs, htv, hfd]
      · right
        exact ⟨dc, by simp [cookiesArgs, htv, hfd, hdc0], Or.inr rfl⟩
    · cases v with
      | none => left; simp [cookiesArgs, htv, hfd]
      | some x =>
        have hx : x = "" := by
          by_contra hx
          exact htv (by simp [truthyOpt, hx])
        left
        simp [cookiesArgs, htv, hfd, hx]

theorem mem_cookiesArgs_flag (fs : String → Bool) (dc : String) (v : Option String)
    (g : String) (hv : optNoDash v = true) (hdc : noDash dc = true)
    (hg : noDash g = false) :
    g ∈ cookiesArgs fs dc v ↔ (g = "-c" ∧ cookiesArgs fs dc v ≠ []) := by
  rcases cookiesArgs_cases fs dc v with h | ⟨s0, h, hs0⟩
  · rw [h]
    simp
  · rw [h]
    have hgs0 : g ≠ s0 := by
      rcases hs0 with h2 | h2
      · rw [h2] at hv
        exact noDash_ne_of g s0 hg hv
      · rw [h2]
        exact noDash_ne_of g dc hg hdc
    simp [hgs0]

theorem outputArgs_cases (v : Option String) :
    ∃ s0, outputArgs v = ["-o", s0] ∧ (v = some s0 ∨ s0 = DOWNLOAD_FOLDER) := by
  cases v with
  | none => exact ⟨DOWNLOAD_FOLDER, rfl, Or.inr rfl⟩
  | some x =>
    by_cases hx : x = ""
    · refine ⟨DOWNLOAD_FOLDER, ?_, Or.inr rfl⟩
      simp [outputArgs, hx]
    · refine ⟨x, ?_, Or.inl rfl⟩
      simp [outputArgs, hx]

theorem mem_outputArgs_flag (v : Option String) (g : String)
    (hv : optNoDash v = true) (hg : noDash g = false) :
    g ∈ outputArgs v ↔ g = "-o" := by
  obtain ⟨s0, h, hs0⟩ := outputArgs_cases v
  rw [h]
  have hgs0 : g ≠ s0 := by
    rcases hs0 with h2 | h2
    · rw [h2] at hv
      exact noDash_ne_of g s0 hg hv
    · rw [h2]
      exact noDash_ne_of g DOWNLOAD_FOLDER hg (by decide)
  simp [hgs0]

theorem mem_baseTriple (g : String) (hg : noDash g = false) :
    g ∈ (["python3", "-m", "gamdl"] : List String) ↔ g = "-m" := by
  have h1 := noDash_ne_of g "python3" hg (by decide)
  have h2 := noDash_ne_of g "gamdl" hg (by decide)
  simp [h1, h2]

theorem mem_cmdBase_iff (fs : String → Bool) (dc : String) (o : JobOptions)
    (hv : optValuesOk o = true) (hdc : noDash dc = true)
    (g : String) (hg : noDash g = false) :
    g ∈ cmdBase fs dc o ↔
      (g = "-m")
    ∨ (g = "-c" ∧ cookiesArgs fs dc o.cookies_path ≠ [])
    ∨ (g = "-o")
    ∨ (g = "-l" ∧ truthyOpt o.language = true)
    ∨ (g = "--cover-format" ∧ truthyOpt o.cover_format = true)
    ∨ (g = "--codec-song" ∧ truthyOpt o.codec_song = true)
    ∨ (g = "--quality-post" ∧ truthyOpt o.quality_post = true)
    ∨ (g = "--log-level" ∧ truthyOpt o.log_level = true)
    ∨ (g = "--no-exceptions")
    ∨ (g = "--save-cover" ∧ o.save_cover = true)
    ∨ (g = "--save-playlist" ∧ o.save_playlist = true)
    ∨ (g = "--overwrite" ∧ o.overwrite = true)
    ∨ (g = "--no-synced-lyrics" ∧ o.no_synced_lyrics = true)
    ∨ (g = "--synced-lyrics-only" ∧ o.synced_lyrics_only = true)
    ∨ (g = "--disable-music-video-skip" ∧ o.disable_music_video_skip = true) := by
  simp only [optValuesOk, Bool.and_eq_true] at hv
  obtain ⟨⟨⟨⟨⟨⟨hv1, hv2⟩, hv3⟩, hv4⟩, hv5⟩, hv6⟩, hv7⟩ := hv
  simp only [cmdBase, List.mem_append]
  rw [mem_baseTriple g hg,
      mem_cookiesArgs_flag fs dc o.cookies_path g hv1 hdc hg,
      mem_outputArgs_flag o.output_path g hv2 hg,
      mem_optArg_flag "-l" o.language g hv3 hg,
      mem_optArg_flag "--cover-format" o.cover_format g hv4 hg,
      mem_optArg_flag "--codec-song" o.codec_song g hv5 hg,
      mem_optArg_flag "--quality-post" o.quality_post g hv6 hg,
      mem_optArg_flag "--log-level" o.log_level g hv7 hg,
      mem_boolFlag g "--save-cover" o.save_cover,
      mem_boolFlag g "--save-playlist" o.save_playlist,
      mem_boolFlag g "--overwrite" o.overwrite,
      mem_boolFlag g "--no-synced-lyrics" o.no_synced_lyrics,
      mem_boolFlag g "--synced-lyrics-only" o.synced_lyrics_only,
      mem_boolFlag g "--disable-music-video-skip" o.disable_music_video_skip,
      List.mem_singleton]
  simp only [or_assoc]

theorem mem_build_gamdl_flag (fs : String → Bool) (dc : String) (o : JobOptions)
    (urls : List String) (hurls : ∀ u ∈ urls, noDash u = true)
    (g : String) (hg : noDash g = false) :
    g ∈ build_gamdl_cmd fs dc o urls ↔ g ∈ cmdBase fs dc o := by
  simp only [build_gamdl_cmd, List.mem_append]
  constructor
  · rintro (h | h)
    · exact h
    · exact absurd rfl (noDash_ne_of g g hg (hurls g h))
  · exact Or.inl

/-- C7 (counterexample): the claim states that a string option's
flag+value pair is in the argument list exactly when the option is
present and non-empty.  The output-path option refutes it: with
`output_path` absent the list still contains the pair `-o downloads`
(web_app.py lines 446-449 always emit `-o`, defaulting to
`DOWNLOAD_FOLDER`). -/
theorem C7_counterexample :
    ({} : JobOptions).output_path = none
  ∧ "-o" ∈ cmdBase (fun _ => false) "cookies.txt" ({} : JobOptions)
  ∧ "downloads" ∈ cmdBase (fun _ => false) "cookies.txt" ({} : JobOptions) := by
  refine ⟨rfl, by decide, by decide⟩

/-- C7 (amended): for option values and URLs that do not themselves begin
with `-`: each of the six boolean flags is in the argument list exactly
when its option is true; each of the optional string flags `-l`,
`--cover-format`, `--codec-song`, `--quality-post`, `--log-level` is in
the list exactly when its option is present and non-empty; `-o` is
always in the list (with the default folder when the option is absent);
and `-c` is in the list exactly when the cookies resolution (given path,
else the working directory's `cookies.txt`) produced arguments, i.e.
when the resolved path is non-empty and exists on disk. -/
theorem C7_cmd_options :
    ∀ (fs : String → Bool) (dc : String) (o : JobOptions) (urls : List String),
      optValuesOk o = true → noDash dc = true → (∀ u ∈ urls, noDash u = true) →
      (("--save-cover" ∈ build_gamdl_cmd fs dc o urls ↔ o.save_cover = true)
      ∧ ("--save-playlist" ∈ build_gamdl_cmd fs dc o urls ↔ o.save_playlist = true)
      ∧ ("--overwrite" ∈ build_gamdl_cmd fs dc o urls ↔ o.overwrite = true)
      ∧ ("--no-synced-lyrics" ∈ build_gamdl_cmd fs dc o urls ↔ o.no_synced_lyrics = true)
      ∧ ("--synced-lyrics-only" ∈ build_gamdl_cmd fs dc o urls
          ↔ o.synced_lyrics_only = true)
      ∧ ("--disable-music-video-skip" ∈ build_gamdl_cmd fs dc o urls
          ↔ o.disable_music_video_skip = true)
      ∧ ("-l" ∈ build_gamdl_cmd fs dc o urls ↔ truthyOpt o.language = true)
      ∧ ("--cover-format" ∈ build_gamdl_cmd fs dc o urls
          ↔ truthyOpt o.cover_format = true)
      ∧ ("--codec-song" ∈ build_gamdl_cmd fs dc o urls ↔ truthyOpt o.codec_song = true)
      ∧ ("--quality-post" ∈ build_gamdl_cmd fs dc o urls
          ↔ truthyOpt o.quality_post = true)
      ∧ ("--log-level" ∈ build_gamdl_cmd fs dc o urls ↔ truthyOpt o.log_level = true)
      ∧ ("-o" ∈ build_gamdl_cmd fs dc o urls)
      ∧ ("-c" ∈ build_gamdl_cmd fs dc o urls
          ↔ cookiesArgs fs dc o.cookies_path ≠ [])) := by
  intro fs dc o urls hv hdc hurls
  refine ⟨?_, ?_, ?_, ?_, ?_, ?_, ?_, ?_, ?_, ?_, ?_, ?_, ?_⟩ <;>
    rw [mem_build_gamdl_flag fs dc o urls hurls _ (by decide),
        mem_cmdBase_iff fs dc o hv hdc _ (by decide)] <;>
    simp

/-- C7 (witness): the amended mapping applied to the claim's example
options: `save_cover = true`, `overwrite = false` yields a list that
contains `--save-cover` and not `--overwrite`. -/
theorem C7_cmd_options_witness :
    ("--save-cover" ∈ build_gamdl_cmd (fun _ => false) "cookies.txt"
        { save_cover := true } [])
  ∧ ("--overwrite" ∉ build_gamdl_cmd (fun _ => false) "cookies.txt"
        { save_cover := true } []) := by
  have h := C7_cmd_options (fun _ => false) "cookies.txt" { save_cover := true } []
    (by decide) (by decide) (by intro u hu; simp at hu)
  exact ⟨h.1.mpr rfl, fun hm => by simpa using h.2.2.1.mp hm⟩
